import Mathlib

/-! AXI-DMA memory copy (`main.c`): interrupt-driven transfer synchronisation.

A shallow embedding of `src/main.c`.  The two interrupt handlers and the
statements of `main` are state transformers on `State`; the control loop is a
step function driven by `Event`s (one foreground statement, one interrupt
delivery, or one element written by the transfer engine), so that every
interleaving of the foreground with the handlers is an event list.

Library calls are recorded in `State.calls`, `printf` output in `State.out`.
-/

namespace AxiDmaMemCopy

/-! ## Constants and data -/

/-- The macro `DELAY_MS` (main.c line 54). -/
def DELAY_MS : Nat := 1

/-- The macro `BUFFER_SIZE` (main.c line 57). -/
def BUFFER_SIZE : Nat := 32

/-- The array `srcBuffer` (main.c lines 88-97). -/
def srcBuffer : List Nat :=
  [0x10000000, 0x10000001, 0x10000002, 0x10000003,
   0x10000004, 0x10000005, 0x10000006, 0x10000007,
   0x10000008, 0x10000009, 0x1000000A, 0x1000000B,
   0x1000000C, 0x1000000D, 0x1000000E, 0x1000000F,
   0x20000000, 0x20000001, 0x20000002, 0x20000003,
   0x20000004, 0x20000005, 0x20000006, 0x20000007,
   0x20000008, 0x20000009, 0x2000000A, 0x2000000B,
   0x2000000C, 0x2000000D, 0x2000000E, 0x2000000F]

/-- Status and interrupt-cause constants that `main.c` takes from the driver
library headers (`cy_pdl.h`, `cybsp.h`).  The headers are not among the
sources, so the values are parameters of the model. -/
structure Pdl where
  CY_RSLT_SUCCESS : Nat
  CY_AXIDMAC_SUCCESS : Nat
  CY_SYSINT_SUCCESS : Nat
  CY_AXIDMAC_INTR_COMPLETION : Nat
  deriving DecidableEq, Repr

/-- One assignment of the header constants, used to evaluate the model on
concrete inputs: all success codes zero, completion cause bit 0. -/
def pdl0 : Pdl :=
  { CY_RSLT_SUCCESS := 0, CY_AXIDMAC_SUCCESS := 0, CY_SYSINT_SUCCESS := 0,
    CY_AXIDMAC_INTR_COMPLETION := 1 }

/-- Calls into the driver library and the core, in the order `main.c` makes them. -/
inductive HwCall where
  | cybsp_init
  | enable_irq
  | SCB_DisableICache
  | SCB_DisableDCache
  | Cy_SCB_UART_Init
  | Cy_SCB_UART_Enable
  | mtb_hal_uart_setup
  | cy_retarget_io_init
  | Cy_SysInt_Init_BTN
  | NVIC_ClearPendingIRQ_BTN
  | NVIC_EnableIRQ_Mux3
  | Cy_AXIDMAC_Disable
  | Cy_AXIDMAC_Channel_DeInit
  | Cy_AXIDMAC_Descriptor_Init
  | Cy_AXIDMAC_Channel_Init
  | Cy_AXIDMAC_Channel_SetInterruptMask (cause : Nat)
  | Cy_AXIDMAC_Enable
  | Cy_SysInt_Init_AXIDMA
  | NVIC_EnableIRQ_Mux4
  | Cy_SysLib_Delay (ms : Nat)
  | Cy_AXIDMAC_Channel_SetDescriptor
  | Cy_AXIDMAC_Channel_Enable
  | Cy_TrigMux_SwTrigger
  | Cy_AXIDMAC_Channel_GetInterruptStatusMasked
  | Cy_AXIDMAC_Channel_ClearInterrupt (cause : Nat)
  | Cy_GPIO_ClearInterrupt
  deriving DecidableEq, Repr

/-- Program points of `main`: `startup` is everything before the `for (;;)`
(lines 172-257), the others are the statements of the loop body, named by
what the statement at that point does. -/
inductive PC where
  | startup
  | clearBtnFlag      -- line 262
  | waitBtn           -- lines 265-268
  | clearDst          -- line 271
  | setDescriptor     -- line 274
  | channelEnable     -- line 275
  | clearComplete     -- line 278
  | swTrigger         -- lines 281-285
  | waitComplete      -- lines 288-291
  | printCompleted    -- lines 293-294
  | compare           -- lines 297-301
  | printSource       -- lines 304-313
  | printDestination  -- lines 315-324
  | printWaitNext     -- lines 325-326
  deriving DecidableEq, Repr

/-- The program state: the two flags, the destination buffer, the program
point of the foreground, whether a `CY_ASSERT` has stopped the program, and
the two logs (text printed, library calls made). -/
structure State where
  pc : PC
  halted : Bool
  g_isComplete : Bool
  g_isInterrupt : Bool
  dstBuffer : List Nat
  out : List String
  calls : List HwCall
  deriving DecidableEq

/-- Modelled from the spec: the macro `CY_ASSERT` is declared in the driver
library, not in the sources; per the spec a failed assertion halts the process
(an unrecoverable abort), a passing one does nothing. -/
def CY_ASSERT (cond : Bool) (s : State) : State :=
  if cond then s else { s with halted := true }

/-- Record one library call. -/
def call (c : HwCall) (s : State) : State :=
  { s with calls := s.calls ++ [c] }

/-- Record the arguments of `printf` calls, rendered. -/
def printf (lines : List String) (s : State) : State :=
  { s with out := s.out ++ lines }

/-! ## Interrupt handlers -/

/-- The handler `HandleAXIDMACIntr` (main.c lines 121-138); `masked` is the value
that `Cy_AXIDMAC_Channel_GetInterruptStatusMasked` returns. -/
def HandleAXIDMACIntr (K : Pdl) (masked : Nat) (s : State) : State :=
  let s := call .Cy_AXIDMAC_Channel_GetInterruptStatusMasked s
  if K.CY_AXIDMAC_INTR_COMPLETION = masked then
    let s := call (.Cy_AXIDMAC_Channel_ClearInterrupt K.CY_AXIDMAC_INTR_COMPLETION) s
    { s with g_isComplete := true }
  else
    CY_ASSERT false s

/-- The handler `HandleGPIOIntr` (main.c lines 148-153). -/
def HandleGPIOIntr (s : State) : State :=
  let s := call .Cy_GPIO_ClearInterrupt s
  { s with g_isInterrupt := true }

/-! ## Memory view of the buffers, `memset`, `memcmp` -/

/-- The four bytes of a `uint32_t` in memory (little endian). -/
def bytesOf (v : Nat) : List Nat :=
  [v % 256, v / 256 % 256, v / 65536 % 256, v / 16777216 % 256]

/-- The bytes of a `uint32_t` array. -/
def memBytes : List Nat → List Nat
  | [] => []
  | v :: vs => bytesOf v ++ memBytes vs

/-- The value of `sizeof(dstBuffer)` in bytes: `BUFFER_SIZE` elements of 4 bytes. -/
def sizeofDst : Nat := BUFFER_SIZE * 4

/-- The call `memset(dstBuffer, 0, n)` for a byte count `n` that is a multiple of 4:
the first `n / 4` elements become zero, the rest is kept. -/
def memsetZero (buf : List Nat) (n : Nat) : List Nat :=
  List.replicate (min (n / 4) buf.length) 0 ++ buf.drop (n / 4)

/-- The call `memcmp(a, b, n)` on byte sequences: compares the first `n` bytes, zero
when they agree, otherwise the difference of the first two bytes that differ. -/
def memcmp : List Nat → List Nat → Nat → Int
  | _, _, 0 => 0
  | a :: as, b :: bs, n + 1 => if a = b then memcmp as bs n else (a : Int) - (b : Int)
  | _, _, _ + 1 => 0

/-- The conversion of an `int` to `cy_rslt_t` (`uint32_t`). -/
def toU32 (r : Int) : Nat := (r % 4294967296).toNat

/-! ## Printing -/

/-- One upper-case hexadecimal digit. -/
def hexDigit : Nat → Char
  | 0 => '0' | 1 => '1' | 2 => '2' | 3 => '3' | 4 => '4' | 5 => '5' | 6 => '6' | 7 => '7'
  | 8 => '8' | 9 => '9' | 10 => 'A' | 11 => 'B' | 12 => 'C' | 13 => 'D' | 14 => 'E' | _ => 'F'

/-- Upper-case hexadecimal digits of `n`, no leading zeros, at most `fuel` digits. -/
def hexUpper : Nat → Nat → List Char
  | 0, _ => []
  | fuel + 1, n => if n < 16 then [hexDigit n] else hexUpper fuel (n / 16) ++ [hexDigit (n % 16)]

/-- The text of `printf("0x%" PRIX32 " ", v)`; a 32-bit value has at most 8 digits. -/
def fmtElem (v : Nat) : String :=
  "0x" ++ String.mk (hexUpper 8 (v % 4294967296)) ++ " "

/-- The dump loop `for (int idx = 0UL; idx < BUFFER_SIZE; idx++)` of lines
305-312 and 316-323: the `printf` texts in order. -/
def dumpLoop (buf : List Nat) : Nat → Nat → List String
  | 0, _ => []
  | n + 1, idx =>
    [fmtElem (buf.getD idx 0)] ++ (if idx % 4 = 3 then ["\r\n"] else []) ++ dumpLoop buf n (idx + 1)

/-- A whole dump: the loop from 0 to `BUFFER_SIZE`, then `printf("\r\n")`. -/
def dumpBuffer (buf : List Nat) : List String :=
  dumpLoop buf BUFFER_SIZE 0 ++ ["\r\n"]

/-! ## The statements of `main` -/

/-- Statuses returned to the startup code by the library; inputs of the model. -/
structure StartupStatus where
  cybsp_init : Nat
  Cy_SCB_UART_Init : Nat
  mtb_hal_uart_setup : Nat
  cy_retarget_io_init : Nat
  Cy_AXIDMAC_Descriptor_Init : Nat
  Cy_AXIDMAC_Channel_Init : Nat
  Cy_SysInt_Init : Nat
  deriving DecidableEq, Repr

/-- The state when `main` is entered: flags are zero-initialised statics, the
local `dstBuffer` holds whatever the stack holds (`dst0`). -/
def entry (dst0 : List Nat) : State :=
  { pc := .startup, halted := false, g_isComplete := false, g_isInterrupt := false,
    dstBuffer := dst0, out := [], calls := [] }

/-- Lines 172-257 of `main`: bring-up up to the `for (;;)`.  Each failed check
stops at its `CY_ASSERT(0)`; when all pass, the loop is entered. -/
def startup (K : Pdl) (r : StartupStatus) (dst0 : List Nat) : State :=
  let s := call .cybsp_init (entry dst0)
  if r.cybsp_init ≠ K.CY_RSLT_SUCCESS then CY_ASSERT false s else
  let s := call .SCB_DisableDCache (call .SCB_DisableICache (call .enable_irq s))
  let s := call .Cy_SCB_UART_Init s
  if r.Cy_SCB_UART_Init ≠ K.CY_RSLT_SUCCESS then CY_ASSERT false s else
  let s := call .Cy_SCB_UART_Enable s
  let s := call .mtb_hal_uart_setup s
  if r.mtb_hal_uart_setup ≠ K.CY_RSLT_SUCCESS then CY_ASSERT false s else
  let s := call .cy_retarget_io_init s
  if r.cy_retarget_io_init ≠ K.CY_RSLT_SUCCESS then CY_ASSERT false s else
  let s := printf ["\x1b[2J\x1b[;H",
    "**************** AXI-DMA memory copy Transfer ****************\r\n",
    "\r\n",
    "- AXI-DMA- memory copy Transfer Initialize & Enable  \r\n"] s
  let s := call .NVIC_EnableIRQ_Mux3 (call .NVIC_ClearPendingIRQ_BTN (call .Cy_SysInt_Init_BTN s))
  let s := call .Cy_AXIDMAC_Channel_DeInit (call .Cy_AXIDMAC_Disable s)
  let s := call .Cy_AXIDMAC_Descriptor_Init s
  let result := r.Cy_AXIDMAC_Descriptor_Init
  if result ≠ K.CY_AXIDMAC_SUCCESS then CY_ASSERT false s else
  let s := call .Cy_AXIDMAC_Channel_Init s
  let result := if K.CY_AXIDMAC_SUCCESS ≠ r.Cy_AXIDMAC_Channel_Init then 1 else 0
  if result ≠ K.CY_AXIDMAC_SUCCESS then CY_ASSERT false s else
  let s := call (.Cy_AXIDMAC_Channel_SetInterruptMask K.CY_AXIDMAC_INTR_COMPLETION) s
  let s := call .Cy_AXIDMAC_Enable s
  let s := call .Cy_SysInt_Init_AXIDMA s
  if r.Cy_SysInt_Init ≠ K.CY_SYSINT_SUCCESS then CY_ASSERT false s else
  let s := call .NVIC_EnableIRQ_Mux4 s
  let s := printf ["- AXI-DMA- memory copy Transfer setup is completed. \r\n",
    "\r\n",
    "**************** Please Press USER_BTN1. ****************\r\n",
    "\r\n"] s
  { s with pc := .clearBtnFlag }

/-- The text of lines 293-294. -/
def msgCompleted : List String := ["- AXI-DMA transfer is completed. \r\n", "\r\n"]

/-- The text of line 304. -/
def hdrSource : String := "**************** Source(CODE FLASH): ****************\r\n"

/-- The text of line 315. -/
def hdrDestination : String := "**************** Destination(SRAM): ****************\r\n"

/-- The text of lines 325-326. -/
def msgWaitNext : List String := ["Wait for next memory transfer. \r\n", "\r\n"]

/-- The comparison of line 297: `result = memcmp(srcBuffer, dstBuffer, BUFFER_SIZE)`. -/
def compareResult (dst : List Nat) : Nat :=
  toU32 (memcmp (memBytes srcBuffer) (memBytes dst) BUFFER_SIZE)

/-- One foreground statement of the loop body (lines 259-327) at the current
program point.  `status` is the value returned by the library call made at
this point, when the statement looks at one (only `Cy_TrigMux_SwTrigger`). -/
def stepMain (K : Pdl) (status : Nat) (s : State) : State :=
  match s.pc with
  | .startup => s
  | .clearBtnFlag => { s with g_isInterrupt := false, pc := .waitBtn }
  | .waitBtn =>
    if s.g_isInterrupt = false then call (.Cy_SysLib_Delay DELAY_MS) s
    else { s with pc := .clearDst }
  | .clearDst => { s with dstBuffer := memsetZero s.dstBuffer sizeofDst, pc := .setDescriptor }
  | .setDescriptor => { call .Cy_AXIDMAC_Channel_SetDescriptor s with pc := .channelEnable }
  | .channelEnable => { call .Cy_AXIDMAC_Channel_Enable s with pc := .clearComplete }
  | .clearComplete => { s with g_isComplete := false, pc := .swTrigger }
  | .swTrigger =>
    let s := call .Cy_TrigMux_SwTrigger s
    if status ≠ K.CY_AXIDMAC_SUCCESS then CY_ASSERT false s
    else { s with pc := .waitComplete }
  | .waitComplete =>
    if s.g_isComplete = false then call (.Cy_SysLib_Delay DELAY_MS) s
    else { s with pc := .printCompleted }
  | .printCompleted => { printf msgCompleted s with pc := .compare }
  | .compare =>
    let result := compareResult s.dstBuffer
    if result ≠ 0 then CY_ASSERT false s
    else { s with pc := .printSource }
  | .printSource =>
    { printf ([hdrSource] ++ dumpBuffer srcBuffer) s with pc := .printDestination }
  | .printDestination =>
    { printf ([hdrDestination] ++ dumpBuffer s.dstBuffer) s with pc := .printWaitNext }
  | .printWaitNext => { printf msgWaitNext s with pc := .clearBtnFlag }

/-! ## The step machine -/

/-- What can happen next: the foreground executes its next statement (with
the status of the library call made there), the button interrupt or the AXI-DMA
interrupt is delivered (with the masked cause the handler will read), or the
transfer engine writes one element of the destination. -/
inductive Event where
  | fg (status : Nat)
  | gpioIrq
  | dmaIrq (masked : Nat)
  | dmaWrite (idx : Nat) (value : Nat)
  deriving DecidableEq, Repr

/-- One step.  A halted processor executes nothing more; the engine is
hardware and writes regardless. -/
def step (K : Pdl) (s : State) : Event → State
  | .fg status => if s.halted then s else stepMain K status s
  | .gpioIrq => if s.halted then s else HandleGPIOIntr s
  | .dmaIrq masked => if s.halted then s else HandleAXIDMACIntr K masked s
  | .dmaWrite idx value => { s with dstBuffer := s.dstBuffer.set idx (value % 4294967296) }

/-- Run a list of events. -/
def run (K : Pdl) (s : State) : List Event → State
  | [] => s
  | e :: es => run K (step K s e) es

/-! ## Observations on runs and the schedules used in the statements -/

/-- An interrupt delivery (either handler), as opposed to foreground or engine activity. -/
def Event.isIrq : Event → Bool
  | .gpioIrq => true
  | .dmaIrq _ => true
  | _ => false

/-- A delivery of the AXI-DMA interrupt. -/
def Event.isDmaIrq : Event → Bool
  | .dmaIrq _ => true
  | _ => false

/-- A delivery of the button interrupt. -/
def Event.isGpioIrq : Event → Bool
  | .gpioIrq => true
  | _ => false

/-- A foreground statement. -/
def Event.isFg : Event → Bool
  | .fg _ => true
  | _ => false

/-- The library calls that the two handlers make. -/
def HwCall.isHandlerCall : HwCall → Bool
  | .Cy_GPIO_ClearInterrupt => true
  | .Cy_AXIDMAC_Channel_GetInterruptStatusMasked => true
  | .Cy_AXIDMAC_Channel_ClearInterrupt _ => true
  | _ => false

/-- Number of software triggers issued so far. -/
def triggers (s : State) : Nat := s.calls.count .Cy_TrigMux_SwTrigger

/-- Whether the iteration in progress at this program point is past its
`Cy_TrigMux_SwTrigger` statement (1) or not yet (0). -/
def issued : PC → Nat
  | .waitComplete => 1
  | .printCompleted => 1
  | .compare => 1
  | .printSource => 1
  | .printDestination => 1
  | .printWaitNext => 1
  | _ => 0

/-- Whether this step is the last statement of the loop body, which returns
the foreground to the start of the loop. -/
def wrapOf (s : State) (e : Event) : Nat :=
  if e.isFg = true ∧ s.pc = .printWaitNext ∧ s.halted = false then 1 else 0

/-- Number of times a run returns to the start of the loop. -/
def wraps (K : Pdl) : State → List Event → Nat
  | _, [] => 0
  | s, e :: es => wrapOf s e + wraps K (step K s e) es

/-- A number `k` of foreground steps (polls, while the foreground is in a wait loop). -/
def polls (k : Nat) : List Event := List.replicate k (.fg 0)

/-- The engine writes the elements of `data` to the destination, from index `idx` on. -/
def engineWrites : Nat → List Nat → List Event
  | _, [] => []
  | idx, v :: vs => .dmaWrite idx v :: engineWrites (idx + 1) vs

/-- The engine model of one transfer: all elements of `srcBuffer` are copied
to the destination in index order. -/
def engineCopy : List Event := engineWrites 0 srcBuffer

/-- The elements written by `engineWrites`, applied to a buffer. -/
def applyWrites : Nat → List Nat → List Nat → List Nat
  | _, [], buf => buf
  | idx, v :: vs, buf => applyWrites (idx + 1) vs (buf.set idx (v % 4294967296))

/-- The polls of one cycle: before the button edge, between the trigger and
the engine's copy, and between the copy and the completion interrupt. -/
structure Delays where
  beforeEdge : Nat
  beforeCopy : Nat
  beforeIrq : Nat
  deriving DecidableEq, Repr

/-- One cycle, from the trigger wait back to the trigger wait, under the
engine model: the button edge arrives during the trigger wait; the foreground
leaves the wait, zeroes the destination, installs the descriptor, enables the
channel, clears the completion flag and issues the trigger (which succeeds);
the engine copies the source and then raises one completion interrupt; the
foreground leaves the completion wait, prints, compares, dumps both buffers,
prints the prompt and clears the button flag. -/
def cycle (K : Pdl) (d : Delays) : List Event :=
  polls d.beforeEdge ++ [.gpioIrq] ++
  [.fg 0, .fg 0, .fg 0, .fg 0, .fg 0, .fg K.CY_AXIDMAC_SUCCESS] ++
  polls d.beforeCopy ++ engineCopy ++ polls d.beforeIrq ++
  [.dmaIrq K.CY_AXIDMAC_INTR_COMPLETION] ++
  [.fg 0, .fg 0, .fg 0, .fg 0, .fg 0, .fg 0, .fg 0]

/-- The state after `n` cycles, the `i`-th with the delays `delay i`. -/
def runCycles (K : Pdl) (delay : Nat → Delays) (s : State) : Nat → State
  | 0 => s
  | n + 1 => run K (runCycles K delay s n) (cycle K (delay n))

/-- The text one successful cycle prints. -/
def cycleOut : List String :=
  msgCompleted ++ ([hdrSource] ++ dumpBuffer srcBuffer) ++
  ([hdrDestination] ++ dumpBuffer srcBuffer) ++ msgWaitNext

/-- All bring-up calls succeed (for the constants `pdl0`). -/
def allOk : StartupStatus :=
  { cybsp_init := 0, Cy_SCB_UART_Init := 0, mtb_hal_uart_setup := 0, cy_retarget_io_init := 0,
    Cy_AXIDMAC_Descriptor_Init := 0, Cy_AXIDMAC_Channel_Init := 0, Cy_SysInt_Init := 0 }

/-- The state at the trigger wait of the first iteration, for the constants
`pdl0`, after a successful bring-up, with a destination that starts as `dst0`. -/
def idle0 (dst0 : List Nat) : State :=
  step pdl0 (startup pdl0 allOk dst0) (.fg 0)

/-- A state at the compare statement whose destination is `dst`. -/
def atCompare (dst : List Nat) : State :=
  { pc := .compare, halted := false, g_isComplete := true, g_isInterrupt := false,
    dstBuffer := dst, out := [], calls := [] }

/-- A state at the `memset` statement whose destination still holds the copy
of the source left by the previous cycle. -/
def staleDst : State :=
  { pc := .clearDst, halted := false, g_isComplete := true, g_isInterrupt := true,
    dstBuffer := srcBuffer, out := [], calls := [] }

/-- A state in the completion wait just after the completion flag was set,
with a destination `dst` and nothing printed yet. -/
def completed (dst : List Nat) : State :=
  { pc := .waitComplete, halted := false, g_isComplete := true, g_isInterrupt := false,
    dstBuffer := dst, out := [], calls := [] }

/-- A state at the statement that clears the completion flag (line 278), with
the flag still set by the previous cycle. -/
def staleArm : State :=
  { pc := .clearComplete, halted := false, g_isComplete := true, g_isInterrupt := false,
    dstBuffer := List.replicate 32 0, out := [], calls := [] }

/-- The library calls of one cycle under the engine model. -/
def cycleCalls (K : Pdl) (d : Delays) : List HwCall :=
  List.replicate d.beforeEdge (.Cy_SysLib_Delay DELAY_MS) ++
  [.Cy_GPIO_ClearInterrupt, .Cy_AXIDMAC_Channel_SetDescriptor, .Cy_AXIDMAC_Channel_Enable,
   .Cy_TrigMux_SwTrigger] ++
  List.replicate d.beforeCopy (.Cy_SysLib_Delay DELAY_MS) ++
  List.replicate d.beforeIrq (.Cy_SysLib_Delay DELAY_MS) ++
  [.Cy_AXIDMAC_Channel_GetInterruptStatusMasked,
   .Cy_AXIDMAC_Channel_ClearInterrupt K.CY_AXIDMAC_INTR_COMPLETION]

/-- The text printed by the end-to-end scenario after the bring-up banner: a
successful bring-up, a zeroed stack, one button edge, no polls. -/
def e2eOut : List String :=
  (run pdl0 (idle0 (List.replicate 32 0)) (cycle pdl0 ⟨0, 0, 0⟩)).out.drop
    (idle0 (List.replicate 32 0)).out.length

/-- Program points before the completion flag is cleared (line 278). -/
def beforeClear : PC → Bool
  | .clearBtnFlag => true
  | .waitBtn => true
  | .clearDst => true
  | .setDescriptor => true
  | .channelEnable => true
  | .clearComplete => true
  | _ => false

/-- Program points after the completion wait has been left. -/
def afterWait : PC → Bool
  | .printCompleted => true
  | .compare => true
  | .printSource => true
  | .printDestination => true
  | .printWaitNext => true
  | _ => false

/-- The IDLE state reached after one whole cycle of the end-to-end scenario. -/
def idleAfterCycle : State :=
  run pdl0 (idle0 (List.replicate 32 0)) (cycle pdl0 ⟨0, 0, 0⟩ ++ polls 2)

/-- One whole iteration of the loop under the engine model, from the start of
the loop body back to it, with further button edges delivered after the
trigger wait has been left: while arming, in flight and while printing. -/
def iterationWithEdges : List Event :=
  [.fg 0, .gpioIrq, .fg 0, .gpioIrq, .fg 0, .fg 0, .fg 0, .gpioIrq, .fg 0, .fg 0] ++
  engineCopy ++ [.gpioIrq, .dmaIrq 1, .fg 0, .fg 0, .fg 0, .gpioIrq, .fg 0, .fg 0, .fg 0]

/-! ## General facts about the step machine -/

/-- A halt is final: no event clears it. -/
theorem step_halted (K : Pdl) (s : State) (e : Event) (h : s.halted = true) :
    (step K s e).halted = true := by
  cases e <;> simp [step, h]

/-- A halt is final along every run. -/
theorem run_halted (K : Pdl) (es : List Event) (s : State) (h : s.halted = true) :
    (run K s es).halted = true := by
  induction es generalizing s with
  | nil => simpa [run] using h
  | cons e es ih => exact ih _ (step_halted K s e h)

/-- A state that is not halted after a step was not halted before it. -/
theorem live_of_step_live (K : Pdl) (s : State) (e : Event)
    (h : (step K s e).halted = false) : s.halted = false := by
  cases hs : s.halted with
  | false => rfl
  | true => rw [step_halted K s e hs] at h; exact absurd h (by decide)

/-- A halted processor changes nothing but (through the engine) the destination. -/
theorem step_of_halted (K : Pdl) (s : State) (e : Event) (h : s.halted = true) :
    (step K s e).halted = true ∧ (step K s e).out = s.out ∧ (step K s e).pc = s.pc ∧
    (step K s e).calls = s.calls := by
  cases e <;> simp [step, h]

/-- After a halt nothing is printed or called any more, along every run. -/
theorem run_of_halted (K : Pdl) (es : List Event) (s : State) (h : s.halted = true) :
    (run K s es).halted = true ∧ (run K s es).out = s.out ∧ (run K s es).pc = s.pc ∧
    (run K s es).calls = s.calls := by
  induction es generalizing s with
  | nil => exact ⟨h, rfl, rfl, rfl⟩
  | cons e es ih =>
    obtain ⟨h1, h2, h3, h4⟩ := step_of_halted K s e h
    obtain ⟨k1, k2, k3, k4⟩ := ih (step K s e) h1
    exact ⟨k1, k2.trans h2, k3.trans h3, k4.trans h4⟩

/-- Running a concatenation is running the parts in turn. -/
theorem run_append (K : Pdl) (es fs : List Event) (s : State) :
    run K s (es ++ fs) = run K (run K s es) fs := by
  induction es generalizing s with
  | nil => rfl
  | cons e es ih => exact ih _

/-! ## The bring-up -/

/-- When the bring-up does not halt, the loop is entered with both flags
clear and the destination untouched. -/
theorem startup_live (K : Pdl) (r : StartupStatus) (dst0 : List Nat)
    (h : (startup K r dst0).halted = false) :
    (startup K r dst0).pc = .clearBtnFlag ∧ (startup K r dst0).g_isComplete = false ∧
    (startup K r dst0).g_isInterrupt = false ∧ (startup K r dst0).dstBuffer = dst0 := by
  by_cases c1 : r.cybsp_init = K.CY_RSLT_SUCCESS
  case neg =>
    simp only [startup, ne_eq, c1, not_true_eq_false, not_false_eq_true, if_true, if_false] at h
    simp [CY_ASSERT] at h
  by_cases c2 : r.Cy_SCB_UART_Init = K.CY_RSLT_SUCCESS
  case neg =>
    simp only [startup, ne_eq, c1, c2, not_true_eq_false, not_false_eq_true, if_true, if_false] at h
    simp [CY_ASSERT] at h
  by_cases c3 : r.mtb_hal_uart_setup = K.CY_RSLT_SUCCESS
  case neg =>
    simp only [startup, ne_eq, c1, c2, c3, not_true_eq_false, not_false_eq_true, if_true, if_false] at h
    simp [CY_ASSERT] at h
  by_cases c4 : r.cy_retarget_io_init = K.CY_RSLT_SUCCESS
  case neg =>
    simp only [startup, ne_eq, c1, c2, c3, c4, not_true_eq_false, not_false_eq_true, if_true, if_false] at h
    simp [CY_ASSERT] at h
  by_cases c5 : r.Cy_AXIDMAC_Descriptor_Init = K.CY_AXIDMAC_SUCCESS
  case neg =>
    simp only [startup, ne_eq, c1, c2, c3, c4, c5, not_true_eq_false, not_false_eq_true, if_true, if_false] at h
    simp [CY_ASSERT] at h
  by_cases c6 : (if K.CY_AXIDMAC_SUCCESS ≠ r.Cy_AXIDMAC_Channel_Init then 1 else 0)
      = K.CY_AXIDMAC_SUCCESS
  case neg =>
    simp only [startup, ne_eq, c1, c2, c3, c4, c5, c6, not_true_eq_false, not_false_eq_true, if_true, if_false] at h
    simp [CY_ASSERT] at h
  by_cases c7 : r.Cy_SysInt_Init = K.CY_SYSINT_SUCCESS
  case neg =>
    simp only [startup, ne_eq, c1, c2, c3, c4, c5, c6, c7, not_true_eq_false, not_false_eq_true, if_true, if_false] at h
    simp [CY_ASSERT] at h
  simp only [startup, ne_eq, c1, c2, c3, c4, c5, c6, c7, not_true_eq_false, not_false_eq_true, if_true, if_false]
  simp [call, printf, entry]

/-- The bring-up never sets the completion flag. -/
theorem startup_flag (K : Pdl) (r : StartupStatus) (dst0 : List Nat) :
    (startup K r dst0).g_isComplete = false := by
  by_cases c1 : r.cybsp_init = K.CY_RSLT_SUCCESS
  case neg =>
    simp only [startup, ne_eq, c1, not_true_eq_false, not_false_eq_true, if_true, if_false]
    simp [CY_ASSERT, call, printf, entry]
  by_cases c2 : r.Cy_SCB_UART_Init = K.CY_RSLT_SUCCESS
  case neg =>
    simp only [startup, ne_eq, c1, c2, not_true_eq_false, not_false_eq_true, if_true, if_false]
    simp [CY_ASSERT, call, printf, entry]
  by_cases c3 : r.mtb_hal_uart_setup = K.CY_RSLT_SUCCESS
  case neg =>
    simp only [startup, ne_eq, c1, c2, c3, not_true_eq_false, not_false_eq_true, if_true, if_false]
    simp [CY_ASSERT, call, printf, entry]
  by_cases c4 : r.cy_retarget_io_init = K.CY_RSLT_SUCCESS
  case neg =>
    simp only [startup, ne_eq, c1, c2, c3, c4, not_true_eq_false, not_false_eq_true, if_true, if_false]
    simp [CY_ASSERT, call, printf, entry]
  by_cases c5 : r.Cy_AXIDMAC_Descriptor_Init = K.CY_AXIDMAC_SUCCESS
  case neg =>
    simp only [startup, ne_eq, c1, c2, c3, c4, c5, not_true_eq_false, not_false_eq_true, if_true, if_false]
    simp [CY_ASSERT, call, printf, entry]
  by_cases c6 : (if K.CY_AXIDMAC_SUCCESS ≠ r.Cy_AXIDMAC_Channel_Init then 1 else 0)
      = K.CY_AXIDMAC_SUCCESS
  case neg =>
    simp only [startup, ne_eq, c1, c2, c3, c4, c5, c6, not_true_eq_false, not_false_eq_true, if_true, if_false]
    simp [CY_ASSERT, call, printf, entry]
  by_cases c7 : r.Cy_SysInt_Init = K.CY_SYSINT_SUCCESS
  case neg =>
    simp only [startup, ne_eq, c1, c2, c3, c4, c5, c6, c7, not_true_eq_false, not_false_eq_true, if_true, if_false]
    simp [CY_ASSERT, call, printf, entry]
  simp only [startup, ne_eq, c1, c2, c3, c4, c5, c6, c7, not_true_eq_false, not_false_eq_true, if_true, if_false]
  simp [call, printf, entry]

/-- The bring-up ends before the loop (halted) or at its first statement. -/
theorem startup_pc (K : Pdl) (r : StartupStatus) (dst0 : List Nat) :
    afterWait (startup K r dst0).pc = false := by
  by_cases c1 : r.cybsp_init = K.CY_RSLT_SUCCESS
  case neg =>
    simp only [startup, ne_eq, c1, not_true_eq_false, not_false_eq_true, if_true, if_false]
    simp [CY_ASSERT, call, printf, entry, afterWait]
  by_cases c2 : r.Cy_SCB_UART_Init = K.CY_RSLT_SUCCESS
  case neg =>
    simp only [startup, ne_eq, c1, c2, not_true_eq_false, not_false_eq_true, if_true, if_false]
    simp [CY_ASSERT, call, printf, entry, afterWait]
  by_cases c3 : r.mtb_hal_uart_setup = K.CY_RSLT_SUCCESS
  case neg =>
    simp only [startup, ne_eq, c1, c2, c3, not_true_eq_false, not_false_eq_true, if_true, if_false]
    simp [CY_ASSERT, call, printf, entry, afterWait]
  by_cases c4 : r.cy_retarget_io_init = K.CY_RSLT_SUCCESS
  case neg =>
    simp only [startup, ne_eq, c1, c2, c3, c4, not_true_eq_false, not_false_eq_true, if_true, if_false]
    simp [CY_ASSERT, call, printf, entry, afterWait]
  by_cases c5 : r.Cy_AXIDMAC_Descriptor_Init = K.CY_AXIDMAC_SUCCESS
  case neg =>
    simp only [startup, ne_eq, c1, c2, c3, c4, c5, not_true_eq_false, not_false_eq_true, if_true, if_false]
    simp [CY_ASSERT, call, printf, entry, afterWait]
  by_cases c6 : (if K.CY_AXIDMAC_SUCCESS ≠ r.Cy_AXIDMAC_Channel_Init then 1 else 0)
      = K.CY_AXIDMAC_SUCCESS
  case neg =>
    simp only [startup, ne_eq, c1, c2, c3, c4, c5, c6, not_true_eq_false, not_false_eq_true, if_true, if_false]
    simp [CY_ASSERT, call, printf, entry, afterWait]
  by_cases c7 : r.Cy_SysInt_Init = K.CY_SYSINT_SUCCESS
  case neg =>
    simp only [startup, ne_eq, c1, c2, c3, c4, c5, c6, c7, not_true_eq_false, not_false_eq_true, if_true, if_false]
    simp [CY_ASSERT, call, printf, entry, afterWait]
  simp only [startup, ne_eq, c1, c2, c3, c4, c5, c6, c7, not_true_eq_false, not_false_eq_true, if_true, if_false]
  simp [call, printf, entry, afterWait]

/-! ## The comparison (C1) -/

/-- The comparison of line 297 passes on a destination equal to the source. -/
theorem compare_source : compareResult srcBuffer = 0 := by decide

/-- Claim C1, the code at a failing input.  The destination equal to the source
except for element 8 (zero instead of 0x10000008) passes the comparison of
line 297: the result is 0, the halt branch is not taken and the program goes on
to print.  Over all 32 indices, a zeroed element is reported exactly when its
index is below 8: `memcmp` is given `BUFFER_SIZE` = 32 as its byte count. -/
theorem compare_passes_corrupted :
    (srcBuffer.set 8 0).length = 32 ∧ (srcBuffer.set 8 0)[8]? ≠ srcBuffer[8]? ∧
    compareResult (srcBuffer.set 8 0) = 0 ∧
    (step pdl0 (atCompare (srcBuffer.set 8 0)) (.fg 0)).halted = false ∧
    (step pdl0 (atCompare (srcBuffer.set 8 0)) (.fg 0)).pc = .printSource ∧
    (List.range 32).all (fun i =>
      decide ((step pdl0 (atCompare (srcBuffer.set i 0)) (.fg 0)).halted = decide (i < 8))) = true := by
  decide

/-! ## The completion handler (C2) -/

/-- Claim C2.  For every masked status `m`: when `m` is exactly
`CY_AXIDMAC_INTR_COMPLETION` the handler clears that cause and sets
`g_isComplete` (and changes nothing else); for every other `m` it halts, leaves
`g_isComplete` as it was, and makes no `Cy_AXIDMAC_Channel_ClearInterrupt` call. -/
theorem HandleAXIDMACIntr_contract (K : Pdl) (m : Nat) (s : State) :
    (m = K.CY_AXIDMAC_INTR_COMPLETION →
      HandleAXIDMACIntr K m s =
        { s with g_isComplete := true,
                 calls := s.calls ++ [.Cy_AXIDMAC_Channel_GetInterruptStatusMasked,
                   .Cy_AXIDMAC_Channel_ClearInterrupt K.CY_AXIDMAC_INTR_COMPLETION] }) ∧
    (m ≠ K.CY_AXIDMAC_INTR_COMPLETION →
      (HandleAXIDMACIntr K m s).halted = true ∧
      (HandleAXIDMACIntr K m s).g_isComplete = s.g_isComplete ∧
      (HandleAXIDMACIntr K m s).calls = s.calls ++ [.Cy_AXIDMAC_Channel_GetInterruptStatusMasked] ∧
      ∀ c, HwCall.Cy_AXIDMAC_Channel_ClearInterrupt c ∉
        (HandleAXIDMACIntr K m s).calls.drop s.calls.length) := by
  constructor
  · intro h
    subst h
    simp [HandleAXIDMACIntr, call]
  · intro h
    have h' : ¬ K.CY_AXIDMAC_INTR_COMPLETION = m := fun e => h e.symm
    simp [HandleAXIDMACIntr, call, CY_ASSERT, h']

theorem HandleAXIDMACIntr_contract_witness :
    (HandleAXIDMACIntr pdl0 1 (completed [])).calls =
      [.Cy_AXIDMAC_Channel_GetInterruptStatusMasked, .Cy_AXIDMAC_Channel_ClearInterrupt 1] ∧
    (HandleAXIDMACIntr pdl0 0 (completed [])).halted = true ∧
    (HandleAXIDMACIntr pdl0 3 (completed [])).halted = true :=
  ⟨congrArg State.calls ((HandleAXIDMACIntr_contract pdl0 1 (completed [])).1 rfl),
   ((HandleAXIDMACIntr_contract pdl0 0 (completed [])).2 (by decide)).1,
   ((HandleAXIDMACIntr_contract pdl0 3 (completed [])).2 (by decide)).1⟩

/-! ## The two wait loops; no lost wakeup (C3) -/

/-- In the trigger wait with the flag clear, anything but a button interrupt
leaves the foreground in the wait, the flag clear and the trigger count as it is. -/
theorem step_waitBtn (K : Pdl) (s : State) (e : Event)
    (hpc : s.pc = .waitBtn) (hi : s.g_isInterrupt = false) (he : e.isGpioIrq = false) :
    (step K s e).pc = .waitBtn ∧ (step K s e).g_isInterrupt = false ∧
    triggers (step K s e) = triggers s := by
  obtain ⟨pc, halted, c, i, dst, out, calls⟩ := s
  simp only at hpc hi
  subst hpc hi
  cases e with
  | fg st =>
    cases halted <;> simp [step, stepMain, call, triggers, List.count_append, List.count_cons]
  | gpioIrq => simp [Event.isGpioIrq] at he
  | dmaIrq m =>
    by_cases hm : K.CY_AXIDMAC_INTR_COMPLETION = m <;> cases halted <;>
      simp [step, HandleAXIDMACIntr, call, CY_ASSERT, triggers, List.count_append,
        List.count_cons, hm]
  | dmaWrite idx v => simp [step, triggers]

/-- The trigger wait is not left, and no trigger issued, as long as no button
interrupt is delivered. -/
theorem run_waitBtn (K : Pdl) (es : List Event) (s : State)
    (hpc : s.pc = .waitBtn) (hi : s.g_isInterrupt = false)
    (hes : ∀ e ∈ es, e.isGpioIrq = false) :
    (run K s es).pc = .waitBtn ∧ (run K s es).g_isInterrupt = false ∧
    triggers (run K s es) = triggers s := by
  induction es generalizing s with
  | nil => exact ⟨hpc, hi, rfl⟩
  | cons e es ih =>
    obtain ⟨h1, h2, h3⟩ := step_waitBtn K s e hpc hi (hes e (List.mem_cons_self _ _))
    obtain ⟨k1, k2, k3⟩ := ih (step K s e) h1 h2 (fun x hx => hes x (List.mem_cons_of_mem _ hx))
    exact ⟨k1, k2, k3.trans h3⟩

/-- In the completion wait with the flag clear, anything but an AXI-DMA
interrupt leaves the foreground in the wait and the flag clear. -/
theorem step_waitComplete (K : Pdl) (s : State) (e : Event)
    (hpc : s.pc = .waitComplete) (hc : s.g_isComplete = false) (hh : s.halted = false)
    (he : e.isDmaIrq = false) :
    (step K s e).pc = .waitComplete ∧ (step K s e).g_isComplete = false ∧
    (step K s e).halted = false ∧ triggers (step K s e) = triggers s := by
  obtain ⟨pc, halted, c, i, dst, out, calls⟩ := s
  simp only at hpc hc hh
  subst hpc hc hh
  cases e with
  | fg st => simp [step, stepMain, call, triggers, List.count_append, List.count_cons]
  | gpioIrq =>
    simp [step, HandleGPIOIntr, call, triggers, List.count_append, List.count_cons]
  | dmaIrq m => simp [Event.isDmaIrq] at he
  | dmaWrite idx v => simp [step, triggers]

/-- The completion wait is not left, and the flag not written, as long as no
AXI-DMA interrupt is delivered. -/
theorem run_waitComplete (K : Pdl) (es : List Event) (s : State)
    (hpc : s.pc = .waitComplete) (hc : s.g_isComplete = false) (hh : s.halted = false)
    (hes : ∀ e ∈ es, e.isDmaIrq = false) :
    (run K s es).pc = .waitComplete ∧ (run K s es).g_isComplete = false ∧
    (run K s es).halted = false ∧ triggers (run K s es) = triggers s := by
  induction es generalizing s with
  | nil => exact ⟨hpc, hc, hh, rfl⟩
  | cons e es ih =>
    obtain ⟨h1, h2, h3, h4⟩ := step_waitComplete K s e hpc hc hh (hes e (List.mem_cons_self _ _))
    obtain ⟨k1, k2, k3, k4⟩ :=
      ih (step K s e) h1 h2 h3 (fun x hx => hes x (List.mem_cons_of_mem _ hx))
    exact ⟨k1, k2, k3, k4.trans h4⟩

/-- Button interrupts and engine writes touch neither the program point, nor
the completion flag, nor the halt state. -/
theorem step_background (K : Pdl) (s : State) (e : Event)
    (he1 : e.isFg = false) (he2 : e.isDmaIrq = false) :
    (step K s e).pc = s.pc ∧ (step K s e).g_isComplete = s.g_isComplete ∧
    (step K s e).halted = s.halted := by
  cases e with
  | fg st => simp [Event.isFg] at he1
  | gpioIrq => cases hh : s.halted <;> simp [step, HandleGPIOIntr, call, hh]
  | dmaIrq m => simp [Event.isDmaIrq] at he2
  | dmaWrite idx v => simp [step]

/-- Button interrupts and engine writes touch neither the program point, nor
the completion flag, nor the halt state, along a run. -/
theorem run_background (K : Pdl) (es : List Event) (s : State)
    (hes : ∀ e ∈ es, e.isFg = false ∧ e.isDmaIrq = false) :
    (run K s es).pc = s.pc ∧ (run K s es).g_isComplete = s.g_isComplete ∧
    (run K s es).halted = s.halted := by
  induction es generalizing s with
  | nil => exact ⟨rfl, rfl, rfl⟩
  | cons e es ih =>
    have he := hes e (List.mem_cons_self _ _)
    obtain ⟨h1, h2, h3⟩ := step_background K s e he.1 he.2
    obtain ⟨k1, k2, k3⟩ := ih (step K s e) (fun x hx => hes x (List.mem_cons_of_mem _ hx))
    exact ⟨k1.trans h1, k2.trans h2, k3.trans h3⟩

/-- From the completion wait with the flag clear: whatever happens before the
completion interrupt, the interrupt sets the flag and the next poll leaves the wait. -/
theorem completion_wakes (K : Pdl) (s : State) (st : Nat) (pre mid : List Event)
    (hpc : s.pc = .waitComplete) (hc : s.g_isComplete = false) (hh : s.halted = false)
    (hpre : ∀ e ∈ pre, e.isDmaIrq = false)
    (hmid : ∀ e ∈ mid, e.isFg = false ∧ e.isDmaIrq = false) :
    ((run K s (pre ++ [.dmaIrq K.CY_AXIDMAC_INTR_COMPLETION] ++ mid)).pc = .waitComplete ∧
      (run K s (pre ++ [.dmaIrq K.CY_AXIDMAC_INTR_COMPLETION] ++ mid)).g_isComplete = true ∧
      (run K s (pre ++ [.dmaIrq K.CY_AXIDMAC_INTR_COMPLETION] ++ mid)).halted = false) ∧
    (run K s (pre ++ [.dmaIrq K.CY_AXIDMAC_INTR_COMPLETION] ++ mid ++ [.fg st])).pc
      = .printCompleted := by
  obtain ⟨p1, p2, p3, _⟩ := run_waitComplete K pre s hpc hc hh hpre
  have irq : (step K (run K s pre) (.dmaIrq K.CY_AXIDMAC_INTR_COMPLETION)).pc = .waitComplete ∧
      (step K (run K s pre) (.dmaIrq K.CY_AXIDMAC_INTR_COMPLETION)).g_isComplete = true ∧
      (step K (run K s pre) (.dmaIrq K.CY_AXIDMAC_INTR_COMPLETION)).halted = false := by
    simp [step, HandleAXIDMACIntr, call, p1, p3]
  obtain ⟨q1, q2, q3⟩ :=
    run_background K mid (step K (run K s pre) (.dmaIrq K.CY_AXIDMAC_INTR_COMPLETION)) hmid
  rw [irq.1] at q1
  rw [irq.2.1] at q2
  rw [irq.2.2] at q3
  have e1 : run K s (pre ++ [.dmaIrq K.CY_AXIDMAC_INTR_COMPLETION] ++ mid) =
      run K (step K (run K s pre) (.dmaIrq K.CY_AXIDMAC_INTR_COMPLETION)) mid := by
    simp only [run_append, run]
  refine ⟨by rw [e1]; exact ⟨q1, q2, q3⟩, ?_⟩
  rw [run_append, e1]
  generalize run K (step K (run K s pre) (.dmaIrq K.CY_AXIDMAC_INTR_COMPLETION)) mid = s4
    at q1 q2 q3 ⊢
  simp [run, step, stepMain, q1, q2, q3]

/-- Claim C3 (no lost wakeup).  From the statement that clears `g_isComplete`
(line 278): the flag is false before the trigger is issued; the trigger
statement leaves it false and enters the completion wait; whatever is
interleaved before the completion interrupt (polls, button interrupts, engine
writes: `pre`), the foreground stays in the wait and nothing writes the flag;
one AXI-DMA interrupt with cause completion, delivered after any such `pre`,
sets the flag, it stays set until the foreground runs again (`mid`), and the
next poll leaves the completion wait. -/
theorem no_lost_wakeup (K : Pdl) (s : State) (st st' : Nat) (pre mid : List Event)
    (hpc : s.pc = .clearComplete) (hh : s.halted = false)
    (hpre : ∀ e ∈ pre, e.isDmaIrq = false)
    (hmid : ∀ e ∈ mid, e.isFg = false ∧ e.isDmaIrq = false) :
    ((step K s (.fg st)).pc = .swTrigger ∧ (step K s (.fg st)).g_isComplete = false ∧
      triggers (step K s (.fg st)) = triggers s) ∧
    ((step K (step K s (.fg st)) (.fg K.CY_AXIDMAC_SUCCESS)).pc = .waitComplete ∧
      (step K (step K s (.fg st)) (.fg K.CY_AXIDMAC_SUCCESS)).g_isComplete = false ∧
      triggers (step K (step K s (.fg st)) (.fg K.CY_AXIDMAC_SUCCESS)) = triggers s + 1) ∧
    ((run K (step K (step K s (.fg st)) (.fg K.CY_AXIDMAC_SUCCESS)) pre).pc = .waitComplete ∧
      (run K (step K (step K s (.fg st)) (.fg K.CY_AXIDMAC_SUCCESS)) pre).g_isComplete = false ∧
      (run K (step K (step K s (.fg st)) (.fg K.CY_AXIDMAC_SUCCESS)) pre).halted = false) ∧
    ((run K (step K (step K s (.fg st)) (.fg K.CY_AXIDMAC_SUCCESS))
        (pre ++ [.dmaIrq K.CY_AXIDMAC_INTR_COMPLETION] ++ mid)).pc = .waitComplete ∧
      (run K (step K (step K s (.fg st)) (.fg K.CY_AXIDMAC_SUCCESS))
        (pre ++ [.dmaIrq K.CY_AXIDMAC_INTR_COMPLETION] ++ mid)).g_isComplete = true ∧
      (run K (step K (step K s (.fg st)) (.fg K.CY_AXIDMAC_SUCCESS))
        (pre ++ [.dmaIrq K.CY_AXIDMAC_INTR_COMPLETION] ++ mid)).halted = false) ∧
    (run K (step K (step K s (.fg st)) (.fg K.CY_AXIDMAC_SUCCESS))
        (pre ++ [.dmaIrq K.CY_AXIDMAC_INTR_COMPLETION] ++ mid ++ [.fg st'])).pc
      = .printCompleted := by
  obtain ⟨pc, halted, c, i, dst, out, calls⟩ := s
  simp only at hpc hh
  subst hpc hh
  have a1 : (step K ⟨.clearComplete, false, c, i, dst, out, calls⟩ (.fg st)) =
      ⟨.swTrigger, false, false, i, dst, out, calls⟩ := by
    simp [step, stepMain]
  have a2 : (step K ⟨.swTrigger, false, false, i, dst, out, calls⟩ (.fg K.CY_AXIDMAC_SUCCESS)) =
      ⟨.waitComplete, false, false, i, dst, out, calls ++ [.Cy_TrigMux_SwTrigger]⟩ := by
    simp [step, stepMain, call]
  rw [a1, a2]
  obtain ⟨p1, p2, p3, _⟩ := run_waitComplete K pre
    ⟨.waitComplete, false, false, i, dst, out, calls ++ [.Cy_TrigMux_SwTrigger]⟩ rfl rfl rfl hpre
  obtain ⟨w1, w2⟩ := completion_wakes K
    ⟨.waitComplete, false, false, i, dst, out, calls ++ [.Cy_TrigMux_SwTrigger]⟩ st' pre mid
    rfl rfl rfl hpre hmid
  refine ⟨⟨rfl, rfl, rfl⟩, ⟨rfl, rfl, ?_⟩, ⟨p1, p2, p3⟩, w1, w2⟩
  simp [triggers, List.count_append, List.count_cons]

theorem no_lost_wakeup_witness :
    (run pdl0 (step pdl0 (step pdl0 staleArm (.fg 0)) (.fg pdl0.CY_AXIDMAC_SUCCESS))
        ([.fg 0, .gpioIrq, .fg 0] ++ [.dmaIrq pdl0.CY_AXIDMAC_INTR_COMPLETION] ++ [.gpioIrq]
          ++ [.fg 0])).pc = .printCompleted :=
  (no_lost_wakeup pdl0 staleArm 0 0 [.fg 0, .gpioIrq, .fg 0] [.gpioIrq] rfl rfl
    (by decide) (by decide)).2.2.2.2

/-! ## One trigger per iteration; dropped edges (C4) -/

/-- One step adds a trigger exactly when the foreground passes the trigger statement. -/
theorem step_triggers (K : Pdl) (s : State) (e : Event)
    (hlive : (step K s e).halted = false) :
    triggers (step K s e) + issued s.pc = triggers s + issued (step K s e).pc + wrapOf s e := by
  have hs : s.halted = false := live_of_step_live K s e hlive
  obtain ⟨pc, halted, c, i, dst, out, calls⟩ := s
  simp only at hs
  subst hs
  cases e with
  | fg st =>
    cases pc <;>
      simp [step, stepMain, call, printf, CY_ASSERT, triggers, issued, wrapOf, Event.isFg,
        List.count_append, List.count_cons] at hlive ⊢
    · cases i <;> simp [issued]
    · split <;> simp_all [issued]
    · cases c <;> simp [issued]
    · split <;> simp_all [issued]
  | gpioIrq =>
    simp [step, HandleGPIOIntr, call, triggers, wrapOf, Event.isFg, List.count_append,
      List.count_cons]
  | dmaIrq m =>
    by_cases hm : K.CY_AXIDMAC_INTR_COMPLETION = m <;>
      simp [step, HandleAXIDMACIntr, call, CY_ASSERT, triggers, wrapOf, Event.isFg,
        List.count_append, List.count_cons, hm]
  | dmaWrite idx v =>
    simp [step, triggers, wrapOf, Event.isFg]

/-- Along a run that does not halt, the triggers issued are the iterations
completed, corrected by where in their iterations the run starts and ends. -/
theorem run_triggers (K : Pdl) (es : List Event) (s : State)
    (hlive : (run K s es).halted = false) :
    triggers (run K s es) + issued s.pc =
      triggers s + issued (run K s es).pc + wraps K s es := by
  induction es generalizing s with
  | nil => simp [run, wraps]
  | cons e es ih =>
    have h1 : (step K s e).halted = false := by
      cases hs : (step K s e).halted with
      | false => rfl
      | true =>
        have := run_halted K es _ hs
        simp only [run] at hlive
        rw [this] at hlive
        exact absurd hlive (by decide)
    have h2 := ih (step K s e) hlive
    have h3 := step_triggers K s e h1
    simp only [run, wraps] at h2 ⊢
    omega

/-- Claim C4 (drop semantics).  For every run `es` from the start of the loop
body that is back at the start of the loop body without a halt, whatever
button interrupts were delivered on the way: the number of software triggers
issued equals the number of iterations completed (one per iteration); the next
statement clears `g_isInterrupt` and enters the trigger wait; there, as long as
no further button interrupt is delivered (`idle`), the foreground stays in the
wait and issues no trigger; a fresh edge then lets it leave the wait. -/
theorem drop_semantics (K : Pdl) (s : State) (es idle : List Event) (st st' : Nat)
    (hstart : s.pc = .clearBtnFlag)
    (hend : (run K s es).pc = .clearBtnFlag)
    (hlive : (run K s es).halted = false)
    (hidle : ∀ e ∈ idle, e.isGpioIrq = false) :
    triggers (run K s es) = triggers s + wraps K s es ∧
    ((run K s (es ++ [.fg st])).pc = .waitBtn ∧
      (run K s (es ++ [.fg st])).g_isInterrupt = false ∧
      triggers (run K s (es ++ [.fg st])) = triggers (run K s es)) ∧
    ((run K s (es ++ .fg st :: idle)).pc = .waitBtn ∧
      (run K s (es ++ .fg st :: idle)).g_isInterrupt = false ∧
      triggers (run K s (es ++ .fg st :: idle)) = triggers (run K s es)) ∧
    ((run K s (es ++ .fg st :: idle)).halted = false →
      (run K s (es ++ .fg st :: idle ++ [.gpioIrq, .fg st'])).pc = .clearDst) := by
  have ht := run_triggers K es s hlive
  rw [hstart, hend] at ht
  have e1 : step K (run K s es) (.fg st) =
      { run K s es with g_isInterrupt := false, pc := .waitBtn } := by
    simp [step, stepMain, hend, hlive]
  have e2 : run K s (es ++ [.fg st]) =
      { run K s es with g_isInterrupt := false, pc := .waitBtn } := by
    rw [run_append, run, run, e1]
  have e3 : run K s (es ++ .fg st :: idle) =
      run K { run K s es with g_isInterrupt := false, pc := .waitBtn } idle := by
    rw [run_append, run, e1]
  obtain ⟨i1, i2, i3⟩ := run_waitBtn K idle
    { run K s es with g_isInterrupt := false, pc := .waitBtn } rfl rfl hidle
  refine ⟨by simpa [issued] using ht, ?_, ?_, ?_⟩
  · rw [e2]; exact ⟨rfl, rfl, rfl⟩
  · rw [e3]; exact ⟨i1, i2, i3⟩
  · intro hl
    have e4 : es ++ .fg st :: idle ++ [.gpioIrq, .fg st'] =
        (es ++ .fg st :: idle) ++ [.gpioIrq, .fg st'] := by simp
    rw [e4, run_append]
    rw [e3] at hl ⊢
    generalize run K { run K s es with g_isInterrupt := false, pc := .waitBtn } idle = t
      at i1 i2 hl ⊢
    simp [run, step, stepMain, HandleGPIOIntr, call, hl, i1]

theorem drop_semantics_witness :
    (run pdl0 (startup pdl0 allOk (List.replicate 32 0)) iterationWithEdges).g_isInterrupt = true ∧
    triggers (run pdl0 (startup pdl0 allOk (List.replicate 32 0)) iterationWithEdges) =
      triggers (startup pdl0 allOk (List.replicate 32 0)) +
        wraps pdl0 (startup pdl0 allOk (List.replicate 32 0)) iterationWithEdges ∧
    wraps pdl0 (startup pdl0 allOk (List.replicate 32 0)) iterationWithEdges = 1 ∧
    (run pdl0 (startup pdl0 allOk (List.replicate 32 0))
      (iterationWithEdges ++ .fg 0 :: [.fg 0, .fg 0, .dmaWrite 0 5, .fg 0])).pc = .waitBtn :=
  ⟨by decide,
   (drop_semantics pdl0 (startup pdl0 allOk (List.replicate 32 0)) iterationWithEdges
      [.fg 0, .fg 0, .dmaWrite 0 5, .fg 0] 0 0 rfl (by decide) (by decide) (by decide)).1,
   by decide,
   (drop_semantics pdl0 (startup pdl0 allOk (List.replicate 32 0)) iterationWithEdges
      [.fg 0, .fg 0, .dmaWrite 0 5, .fg 0] 0 0 rfl (by decide) (by decide)
      (by decide)).2.2.1.1⟩

/-! ## Zero baseline (C5) -/

/-- An interrupt delivery moves neither the foreground nor the destination nor
the output, and adds only handler calls to the call log. -/
theorem step_irq (K : Pdl) (e : Event) (he : e.isIrq = true) (s : State) :
    (step K s e).pc = s.pc ∧ (step K s e).dstBuffer = s.dstBuffer ∧
    (step K s e).out = s.out ∧
    ∃ extra, (step K s e).calls = s.calls ++ extra ∧ ∀ c ∈ extra, c.isHandlerCall = true := by
  cases e with
  | fg st => simp [Event.isIrq] at he
  | dmaWrite i v => simp [Event.isIrq] at he
  | gpioIrq =>
    by_cases hh : s.halted = true
    · exact ⟨by simp [step, hh], by simp [step, hh], by simp [step, hh], [], by simp [step, hh]⟩
    · refine ⟨by simp [step, hh, HandleGPIOIntr, call], by simp [step, hh, HandleGPIOIntr, call],
        by simp [step, hh, HandleGPIOIntr, call], [.Cy_GPIO_ClearInterrupt], ?_, ?_⟩
      · simp [step, hh, HandleGPIOIntr, call]
      · simp [HwCall.isHandlerCall]
  | dmaIrq m =>
    by_cases hh : s.halted = true
    · exact ⟨by simp [step, hh], by simp [step, hh], by simp [step, hh], [], by simp [step, hh]⟩
    · by_cases hm : K.CY_AXIDMAC_INTR_COMPLETION = m
      · refine ⟨by simp [step, hh, HandleAXIDMACIntr, call, hm],
          by simp [step, hh, HandleAXIDMACIntr, call, hm],
          by simp [step, hh, HandleAXIDMACIntr, call, hm],
          [.Cy_AXIDMAC_Channel_GetInterruptStatusMasked,
           .Cy_AXIDMAC_Channel_ClearInterrupt K.CY_AXIDMAC_INTR_COMPLETION], ?_, ?_⟩
        · simp [step, hh, HandleAXIDMACIntr, call, hm]
        · simp [HwCall.isHandlerCall]
      · refine ⟨by simp [step, hh, HandleAXIDMACIntr, call, hm, CY_ASSERT],
          by simp [step, hh, HandleAXIDMACIntr, call, hm, CY_ASSERT],
          by simp [step, hh, HandleAXIDMACIntr, call, hm, CY_ASSERT],
          [.Cy_AXIDMAC_Channel_GetInterruptStatusMasked], ?_, ?_⟩
        · simp [step, hh, HandleAXIDMACIntr, call, hm, CY_ASSERT]
        · simp [HwCall.isHandlerCall]

/-- Interrupt deliveries move neither the foreground nor the destination nor
the output, and add only handler calls to the call log. -/
theorem run_irqs (K : Pdl) (irqs : List Event) (hirq : ∀ e ∈ irqs, e.isIrq = true) (s : State) :
    (run K s irqs).pc = s.pc ∧ (run K s irqs).dstBuffer = s.dstBuffer ∧
    (run K s irqs).out = s.out ∧
    ∃ extra, (run K s irqs).calls = s.calls ++ extra ∧ ∀ c ∈ extra, c.isHandlerCall = true := by
  induction irqs generalizing s with
  | nil => exact ⟨rfl, rfl, rfl, [], by simp [run]⟩
  | cons e es ih =>
    have hes : ∀ e ∈ es, e.isIrq = true := fun x hx => hirq x (List.mem_cons_of_mem _ hx)
    have he : e.isIrq = true := hirq e (List.mem_cons_self _ _)
    obtain ⟨h1, h2, h3, x1, h4, h5⟩ := ih hes (step K s e)
    obtain ⟨k1, k2, k3, x2, k4, k5⟩ := step_irq K e he s
    refine ⟨by simp [run, h1, k1], by simp [run, h2, k2], by simp [run, h3, k3], x2 ++ x1, ?_, ?_⟩
    · simp [run, h4, k4]
    · intro c hc
      rcases List.mem_append.1 hc with h | h
      · exact k5 c h
      · exact h5 c h

/-- Handler calls do not change the count of any other call. -/
theorem count_of_handler_calls (c : HwCall) (hc : c.isHandlerCall = false) (l extra : List HwCall)
    (h : ∀ x ∈ extra, x.isHandlerCall = true) : (l ++ extra).count c = l.count c := by
  have : c ∉ extra := fun hm => by simp [h c hm] at hc
  simp [List.count_append, List.count_eq_zero_of_not_mem this]

/-- Claim C5 (zero baseline).  For every content of the 32-element destination
at the `memset` statement (line 271): after the statement, and after any
interrupts delivered then, the foreground is at the statement that installs the
descriptor, no descriptor has been installed nor the channel enabled since, and
every one of the 32 elements is zero. -/
theorem zero_baseline (K : Pdl) (s : State) (status : Nat) (irqs : List Event)
    (hpc : s.pc = .clearDst) (hh : s.halted = false)
    (hlen : s.dstBuffer.length = BUFFER_SIZE)
    (hirq : ∀ e ∈ irqs, e.isIrq = true) :
    (run K (step K s (.fg status)) irqs).pc = .setDescriptor ∧
    (run K (step K s (.fg status)) irqs).dstBuffer.length = BUFFER_SIZE ∧
    (∀ i, i < BUFFER_SIZE → (run K (step K s (.fg status)) irqs).dstBuffer[i]? = some 0) ∧
    (run K (step K s (.fg status)) irqs).calls.count .Cy_AXIDMAC_Channel_SetDescriptor
      = s.calls.count .Cy_AXIDMAC_Channel_SetDescriptor ∧
    (run K (step K s (.fg status)) irqs).calls.count .Cy_AXIDMAC_Channel_Enable
      = s.calls.count .Cy_AXIDMAC_Channel_Enable := by
  obtain ⟨h1, h2, _, extra, h4, h5⟩ := run_irqs K irqs hirq (step K s (.fg status))
  have hd : (step K s (.fg status)).dstBuffer = List.replicate 32 0 := by
    simp [step, hh, stepMain, hpc, memsetZero, sizeofDst, hlen, BUFFER_SIZE]
  have hc : (step K s (.fg status)).calls = s.calls := by
    simp [step, hh, stepMain, hpc]
  have hp : (step K s (.fg status)).pc = .setDescriptor := by
    simp [step, hh, stepMain, hpc]
  refine ⟨by rw [h1, hp], by rw [h2, hd]; rfl, ?_, ?_, ?_⟩
  · intro i hi
    rw [h2, hd]
    have hi' : i < 32 := hi
    interval_cases i <;> rfl
  · rw [h4, hc]; exact count_of_handler_calls .Cy_AXIDMAC_Channel_SetDescriptor rfl _ _ h5
  · rw [h4, hc]; exact count_of_handler_calls .Cy_AXIDMAC_Channel_Enable rfl _ _ h5

theorem zero_baseline_witness :
    staleDst.dstBuffer = srcBuffer ∧
    (run pdl0 (step pdl0 staleDst (.fg 0)) [.gpioIrq, .dmaIrq 1]).dstBuffer[31]? = some 0 :=
  ⟨rfl, (zero_baseline pdl0 staleDst 0 [.gpioIrq, .dmaIrq 1] rfl rfl rfl (by decide)).2.2.1 31
    (by decide)⟩

/-! ## Configuration errors (C6) -/

/-- Claim C6 (configuration errors are fatal).  With `CY_AXIDMAC_SUCCESS` zero
and the other bring-up calls successful, for every status of
`Cy_AXIDMAC_Descriptor_Init` and of `Cy_AXIDMAC_Channel_Init`: the bring-up halts
before the loop is entered exactly when one of the two differs from
`CY_AXIDMAC_SUCCESS`; when both are successful the loop is entered and each of
the two was called once; neither is ever called twice. -/
theorem config_errors_fatal (K : Pdl) (r : StartupStatus) (dst0 : List Nat)
    (hK : K.CY_AXIDMAC_SUCCESS = 0)
    (h1 : r.cybsp_init = K.CY_RSLT_SUCCESS)
    (h2 : r.Cy_SCB_UART_Init = K.CY_RSLT_SUCCESS)
    (h3 : r.mtb_hal_uart_setup = K.CY_RSLT_SUCCESS)
    (h4 : r.cy_retarget_io_init = K.CY_RSLT_SUCCESS)
    (h5 : r.Cy_SysInt_Init = K.CY_SYSINT_SUCCESS) :
    (((startup K r dst0).halted = true ∧ (startup K r dst0).pc = .startup) ↔
      (r.Cy_AXIDMAC_Descriptor_Init ≠ K.CY_AXIDMAC_SUCCESS ∨
       r.Cy_AXIDMAC_Channel_Init ≠ K.CY_AXIDMAC_SUCCESS)) ∧
    ((r.Cy_AXIDMAC_Descriptor_Init = K.CY_AXIDMAC_SUCCESS ∧
      r.Cy_AXIDMAC_Channel_Init = K.CY_AXIDMAC_SUCCESS) →
      (startup K r dst0).halted = false ∧ (startup K r dst0).pc = .clearBtnFlag ∧
      (startup K r dst0).calls.count .Cy_AXIDMAC_Descriptor_Init = 1 ∧
      (startup K r dst0).calls.count .Cy_AXIDMAC_Channel_Init = 1) ∧
    (startup K r dst0).calls.count .Cy_AXIDMAC_Descriptor_Init ≤ 1 ∧
    (startup K r dst0).calls.count .Cy_AXIDMAC_Channel_Init ≤ 1 := by
  by_cases hd : r.Cy_AXIDMAC_Descriptor_Init = 0
  · by_cases hc : r.Cy_AXIDMAC_Channel_Init = 0
    · simp [startup, entry, call, printf, CY_ASSERT, h1, h2, h3, h4, h5, hK, hd, hc, List.count_cons]
    · have hc' : ¬ (0 = r.Cy_AXIDMAC_Channel_Init) := fun h => hc h.symm
      simp [startup, entry, call, printf, CY_ASSERT, h1, h2, h3, h4, h5, hK, hd, hc, hc', List.count_cons]
  · simp [startup, entry, call, printf, CY_ASSERT, h1, h2, h3, h4, h5, hK, hd, List.count_cons]

theorem config_errors_fatal_witness :
    (startup pdl0 ⟨0, 0, 0, 0, 0, 5, 0⟩ []).halted = true ∧
    (startup pdl0 ⟨0, 0, 0, 0, 0, 0, 0⟩ []).halted = false :=
  ⟨((config_errors_fatal pdl0 ⟨0, 0, 0, 0, 0, 5, 0⟩ [] rfl rfl rfl rfl rfl rfl).1.2
      (Or.inr (by decide))).1,
   ((config_errors_fatal pdl0 ⟨0, 0, 0, 0, 0, 0, 0⟩ [] rfl rfl rfl rfl rfl rfl).2.1
      ⟨rfl, rfl⟩).1⟩

/-! ## Whole cycles under the engine model (C7) -/

/-- Polls in the trigger wait with the flag clear only add delays. -/
theorem run_polls_waitBtn (K : Pdl) (k : Nat) (s : State)
    (hpc : s.pc = .waitBtn) (hi : s.g_isInterrupt = false) (hh : s.halted = false) :
    run K s (polls k) =
      { s with calls := s.calls ++ List.replicate k (.Cy_SysLib_Delay DELAY_MS) } := by
  induction k generalizing s with
  | zero => simp [polls, run]
  | succ k ih =>
    have h1 : step K s (.fg 0) = call (.Cy_SysLib_Delay DELAY_MS) s := by
      simp [step, stepMain, hpc, hi, hh]
    have h2 : polls (k + 1) = .fg 0 :: polls k := by simp [polls, List.replicate_succ]
    rw [h2, run, h1, ih _ (by simpa [call] using hpc) (by simpa [call] using hi)
      (by simpa [call] using hh)]
    simp [call, List.replicate_succ]

/-- Polls in the completion wait with the flag clear only add delays. -/
theorem run_polls_waitComplete (K : Pdl) (k : Nat) (s : State)
    (hpc : s.pc = .waitComplete) (hc : s.g_isComplete = false) (hh : s.halted = false) :
    run K s (polls k) =
      { s with calls := s.calls ++ List.replicate k (.Cy_SysLib_Delay DELAY_MS) } := by
  induction k generalizing s with
  | zero => simp [polls, run]
  | succ k ih =>
    have h1 : step K s (.fg 0) = call (.Cy_SysLib_Delay DELAY_MS) s := by
      simp [step, stepMain, hpc, hc, hh]
    have h2 : polls (k + 1) = .fg 0 :: polls k := by simp [polls, List.replicate_succ]
    rw [h2, run, h1, ih _ (by simpa [call] using hpc) (by simpa [call] using hc)
      (by simpa [call] using hh)]
    simp [call, List.replicate_succ]

/-- The engine writes change the destination, and nothing else. -/
theorem run_engineWrites (K : Pdl) (data : List Nat) (idx : Nat) (s : State) :
    run K s (engineWrites idx data) =
      { s with dstBuffer := applyWrites idx data s.dstBuffer } := by
  induction data generalizing idx s with
  | nil => simp [engineWrites, applyWrites, run]
  | cons v vs ih =>
    simp only [engineWrites, applyWrites, run]
    rw [ih]
    simp [step]

/-- The engine copy turns the zeroed destination into the source contents. -/
theorem engineCopy_result : applyWrites 0 srcBuffer (List.replicate 32 0) = srcBuffer := by
  decide

/-- One cycle under the engine model, from the trigger wait back to the trigger wait. -/
theorem cycle_spec (K : Pdl) (d : Delays) (s : State)
    (hpc : s.pc = .waitBtn) (hi : s.g_isInterrupt = false) (hh : s.halted = false)
    (hlen : s.dstBuffer.length = BUFFER_SIZE) :
    run K s (cycle K d) =
      { pc := .waitBtn, halted := false, g_isComplete := true, g_isInterrupt := false,
        dstBuffer := srcBuffer, out := s.out ++ cycleOut,
        calls := s.calls ++ cycleCalls K d } := by
  obtain ⟨pc, halted, c, i, dst, out, calls⟩ := s
  simp only at hpc hi hh hlen
  subst hpc hi hh
  have hdrop : dst.drop 32 = [] := List.drop_eq_nil_of_le (by simp [hlen, BUFFER_SIZE])
  have e1 : run K ⟨.waitBtn, false, c, false, dst, out, calls⟩ (polls d.beforeEdge) =
      ⟨.waitBtn, false, c, false, dst, out,
        calls ++ List.replicate d.beforeEdge (.Cy_SysLib_Delay DELAY_MS)⟩ :=
    run_polls_waitBtn K d.beforeEdge ⟨.waitBtn, false, c, false, dst, out, calls⟩ rfl rfl rfl
  have e2 : ∀ cs, run K ⟨.waitBtn, false, c, false, dst, out, cs⟩
      ([.gpioIrq] ++ [.fg 0, .fg 0, .fg 0, .fg 0, .fg 0, .fg K.CY_AXIDMAC_SUCCESS]) =
      ⟨.waitComplete, false, false, true, List.replicate 32 0, out,
        cs ++ [.Cy_GPIO_ClearInterrupt, .Cy_AXIDMAC_Channel_SetDescriptor,
          .Cy_AXIDMAC_Channel_Enable, .Cy_TrigMux_SwTrigger]⟩ := by
    intro cs
    simp [run, step, stepMain, HandleGPIOIntr, call, memsetZero, sizeofDst, BUFFER_SIZE, hlen,
      hdrop]
  have e3 : ∀ k b cs, run K ⟨.waitComplete, false, false, true, b, out, cs⟩ (polls k) =
      ⟨.waitComplete, false, false, true, b, out,
        cs ++ List.replicate k (.Cy_SysLib_Delay DELAY_MS)⟩ := by
    intro k b cs
    exact run_polls_waitComplete K k ⟨.waitComplete, false, false, true, b, out, cs⟩ rfl rfl rfl
  have e4 : ∀ cs, run K ⟨.waitComplete, false, false, true, List.replicate 32 0, out, cs⟩
      engineCopy = ⟨.waitComplete, false, false, true, srcBuffer, out, cs⟩ := by
    intro cs
    rw [engineCopy, run_engineWrites]
    simp only [engineCopy_result]
  have e5 : ∀ cs, run K ⟨.waitComplete, false, false, true, srcBuffer, out, cs⟩
      ([.dmaIrq K.CY_AXIDMAC_INTR_COMPLETION] ++
        [.fg 0, .fg 0, .fg 0, .fg 0, .fg 0, .fg 0, .fg 0]) =
      ⟨.waitBtn, false, true, false, srcBuffer, out ++ cycleOut,
        cs ++ [.Cy_AXIDMAC_Channel_GetInterruptStatusMasked,
          .Cy_AXIDMAC_Channel_ClearInterrupt K.CY_AXIDMAC_INTR_COMPLETION]⟩ := by
    intro cs
    simp [run, step, stepMain, HandleAXIDMACIntr, call, printf, CY_ASSERT, compare_source,
      cycleOut]
  have hcyc : cycle K d = polls d.beforeEdge ++
      (([.gpioIrq] ++ [.fg 0, .fg 0, .fg 0, .fg 0, .fg 0, .fg K.CY_AXIDMAC_SUCCESS]) ++
        (polls d.beforeCopy ++ (engineCopy ++ (polls d.beforeIrq ++
          ([.dmaIrq K.CY_AXIDMAC_INTR_COMPLETION] ++
            [.fg 0, .fg 0, .fg 0, .fg 0, .fg 0, .fg 0, .fg 0]))))) := by
    simp [cycle]
  rw [hcyc, run_append, e1, run_append, e2, run_append, e3, run_append, e4, run_append, e3, e5]
  simp [cycleCalls]

/-- After any number of cycles the controller is back in the trigger wait,
not halted, with one trigger issued per cycle. -/
theorem runCycles_spec (K : Pdl) (delay : Nat → Delays) (s : State)
    (hpc : s.pc = .waitBtn) (hi : s.g_isInterrupt = false) (hh : s.halted = false)
    (hlen : s.dstBuffer.length = BUFFER_SIZE) (n : Nat) :
    (runCycles K delay s n).pc = .waitBtn ∧ (runCycles K delay s n).g_isInterrupt = false ∧
    (runCycles K delay s n).halted = false ∧
    (runCycles K delay s n).dstBuffer.length = BUFFER_SIZE ∧
    triggers (runCycles K delay s n) = triggers s + n := by
  induction n with
  | zero => exact ⟨hpc, hi, hh, hlen, rfl⟩
  | succ n ih =>
    obtain ⟨h1, h2, h3, h4, h5⟩ := ih
    simp only [runCycles]
    rw [cycle_spec K (delay n) _ h1 h2 h3 h4]
    refine ⟨rfl, rfl, rfl, rfl, ?_⟩
    simp only [triggers] at h5 ⊢
    simp [cycleCalls, List.count_append, List.count_cons, List.count_replicate, h5]
    omega

/-- Claim C7 (idempotent re-arm).  Under the engine model of `cycle` (each
trigger is followed by a copy of all 32 source elements and then one completion
interrupt), starting in the trigger wait, with the button edges delivered one
per cycle during the trigger wait and any numbers of polls `delay`: cycle
number `n + 1`, for every `n`, ends with the destination equal to the source at
all 32 indices, passes the comparison (no halt, the success text of the cycle
is printed), issues one trigger, and is back in the trigger wait. -/
theorem idempotent_rearm (K : Pdl) (delay : Nat → Delays) (s : State) (n : Nat)
    (hpc : s.pc = .waitBtn) (hi : s.g_isInterrupt = false) (hh : s.halted = false)
    (hlen : s.dstBuffer.length = BUFFER_SIZE) :
    (runCycles K delay s (n + 1)).dstBuffer = srcBuffer ∧
    (∀ i, i < BUFFER_SIZE → (runCycles K delay s (n + 1)).dstBuffer[i]? = srcBuffer[i]?) ∧
    compareResult (runCycles K delay s (n + 1)).dstBuffer = 0 ∧
    (runCycles K delay s (n + 1)).halted = false ∧
    (runCycles K delay s (n + 1)).out = (runCycles K delay s n).out ++ cycleOut ∧
    (runCycles K delay s (n + 1)).pc = .waitBtn ∧
    (runCycles K delay s (n + 1)).g_isInterrupt = false ∧
    triggers (runCycles K delay s (n + 1)) = triggers (runCycles K delay s n) + 1 := by
  obtain ⟨h1, h2, h3, h4, h5⟩ := runCycles_spec K delay s hpc hi hh hlen n
  obtain ⟨k1, k2, k3, k4, k5⟩ := runCycles_spec K delay s hpc hi hh hlen (n + 1)
  have hd : (runCycles K delay s (n + 1)).dstBuffer = srcBuffer := by
    simp only [runCycles]
    rw [cycle_spec K (delay n) _ h1 h2 h3 h4]
  have ho : (runCycles K delay s (n + 1)).out = (runCycles K delay s n).out ++ cycleOut := by
    simp only [runCycles]
    rw [cycle_spec K (delay n) _ h1 h2 h3 h4]
  refine ⟨hd, ?_, ?_, k3, ho, k1, k2, by omega⟩
  · intro i _
    rw [hd]
  · rw [hd]; exact compare_source

theorem idempotent_rearm_witness :
    (runCycles pdl0 (fun i => ⟨i, 2, 1⟩) (idle0 (List.replicate 32 7)) 3).dstBuffer = srcBuffer ∧
    (runCycles pdl0 (fun i => ⟨i, 2, 1⟩) (idle0 (List.replicate 32 7)) 3).pc = .waitBtn :=
  ⟨(idempotent_rearm pdl0 (fun i => ⟨i, 2, 1⟩) (idle0 (List.replicate 32 7)) 2
      rfl rfl rfl rfl).1,
   (idempotent_rearm pdl0 (fun i => ⟨i, 2, 1⟩) (idle0 (List.replicate 32 7)) 2
      rfl rfl rfl rfl).2.2.2.2.2.1⟩

/-! ## Output of a failing cycle (C8) -/

/-- Claim C8 fails as stated: with a destination that is still all zero when
the completion flag is observed, the comparison reports a mismatch and the
program halts, but the text emitted in between is not empty: the message
`- AXI-DMA transfer is completed.` has been printed. -/
theorem mismatch_output_not_empty :
    compareResult (completed (List.replicate 32 0)).dstBuffer ≠ 0 ∧
    (completed (List.replicate 32 0)).out = [] ∧
    (run pdl0 (completed (List.replicate 32 0)) [.fg 0, .fg 0, .fg 0]).halted = true ∧
    (run pdl0 (completed (List.replicate 32 0)) [.fg 0, .fg 0, .fg 0]).out =
      ["- AXI-DMA transfer is completed. \r\n", "\r\n"] ∧
    (run pdl0 (completed (List.replicate 32 0)) [.fg 0, .fg 0, .fg 0]).out ≠ [] := by
  decide

/-- Claim C8, amended.  In every cycle in which the comparison reports a
mismatch the program halts at the comparison, and the only text emitted between
observing the completion flag and the halt is the message of lines 293-294
(printed before the comparison); whatever happens afterwards (`rest`), nothing
more is printed: no buffer dump and no prompt for the next trigger. -/
theorem mismatch_halts_after_completion_message (K : Pdl) (s : State) (st1 st2 st3 : Nat)
    (rest : List Event)
    (hpc : s.pc = .waitComplete) (hc : s.g_isComplete = true) (hh : s.halted = false)
    (hm : compareResult s.dstBuffer ≠ 0) :
    (run K s [.fg st1, .fg st2]).halted = false ∧
    (run K s [.fg st1, .fg st2]).pc = .compare ∧
    (run K s [.fg st1, .fg st2, .fg st3]).halted = true ∧
    (run K s ([.fg st1, .fg st2, .fg st3] ++ rest)).halted = true ∧
    (run K s ([.fg st1, .fg st2, .fg st3] ++ rest)).out = s.out ++ msgCompleted ∧
    (run K s ([.fg st1, .fg st2, .fg st3] ++ rest)).pc = .compare := by
  obtain ⟨pc, halted, c, i, dst, out, calls⟩ := s
  simp only at hpc hc hh hm
  subst hpc hc hh
  have e : run K ⟨.waitComplete, false, true, i, dst, out, calls⟩ [.fg st1, .fg st2, .fg st3] =
      ⟨.compare, true, true, i, dst, out ++ msgCompleted, calls⟩ := by
    simp [run, step, stepMain, printf, CY_ASSERT, hm]
  obtain ⟨h1, h2, h3, _⟩ := run_of_halted K rest
    ⟨.compare, true, true, i, dst, out ++ msgCompleted, calls⟩ rfl
  refine ⟨by simp [run, step, stepMain, printf], by simp [run, step, stepMain, printf],
    by rw [e], ?_, ?_, ?_⟩
  · rw [run_append, e]; exact h1
  · rw [run_append, e]; exact h2
  · rw [run_append, e]; exact h3

theorem mismatch_halts_after_completion_message_witness :
    (run pdl0 (completed (List.replicate 32 0)) ([.fg 0, .fg 0, .fg 0] ++ [.fg 0, .gpioIrq])).out
      = (completed (List.replicate 32 0)).out ++ msgCompleted :=
  (mismatch_halts_after_completion_message pdl0 (completed (List.replicate 32 0)) 0 0 0
    [.fg 0, .gpioIrq] rfl rfl rfl (by decide)).2.2.2.2.1

/-! ## Output of a successful cycle (C9) -/

set_option maxRecDepth 100000 in
/-- The dump of the source contents, as one text: 8 rows of 4 values. -/
theorem dump_source_text :
    String.join (dumpBuffer srcBuffer) =
      "0x10000000 0x10000001 0x10000002 0x10000003 \r\n" ++
      "0x10000004 0x10000005 0x10000006 0x10000007 \r\n" ++
      "0x10000008 0x10000009 0x1000000A 0x1000000B \r\n" ++
      "0x1000000C 0x1000000D 0x1000000E 0x1000000F \r\n" ++
      "0x20000000 0x20000001 0x20000002 0x20000003 \r\n" ++
      "0x20000004 0x20000005 0x20000006 0x20000007 \r\n" ++
      "0x20000008 0x20000009 0x2000000A 0x2000000B \r\n" ++
      "0x2000000C 0x2000000D 0x2000000E 0x2000000F \r\n" ++ "\r\n" := by
  decide

/-- Claim C9 fails as stated: in the end-to-end scenario the only completion
message is the first text of the cycle, printed before both dumps; the
destination header is text number 44, and what follows it is the destination
dump and then directly the prompt, with no message in between. -/
theorem e2e_nothing_between_dump_and_prompt :
    e2eOut.take 2 = ["- AXI-DMA transfer is completed. \r\n", "\r\n"] ∧
    e2eOut[44]? = some "**************** Destination(SRAM): ****************\r\n" ∧
    e2eOut.drop 45 = dumpBuffer srcBuffer ++ ["Wait for next memory transfer. \r\n", "\r\n"] ∧
    "- AXI-DMA transfer is completed. \r\n" ∉ e2eOut.drop 2 := by
  decide

/-- Claim C9, amended.  After a successful bring-up and one button edge, under
the engine model, the cycle ends in the trigger wait with the destination equal
to the source, and prints, in this order: the completion message, the source
dump, the destination dump, the prompt for the next trigger.  The destination
dump is the 32 values in index order in upper-case hexadecimal, a line break
after every fourth value: 8 rows of 4 values equal to the source. -/
theorem e2e_output (K : Pdl) (r : StartupStatus) (dst0 : List Nat) (d : Delays)
    (hlive : (startup K r dst0).halted = false) (hlen : dst0.length = BUFFER_SIZE) :
    (run K (startup K r dst0) (.fg 0 :: cycle K d)).halted = false ∧
    (run K (startup K r dst0) (.fg 0 :: cycle K d)).pc = .waitBtn ∧
    (run K (startup K r dst0) (.fg 0 :: cycle K d)).dstBuffer = srcBuffer ∧
    (run K (startup K r dst0) (.fg 0 :: cycle K d)).out =
      (startup K r dst0).out ++
        (msgCompleted ++ ([hdrSource] ++ dumpBuffer srcBuffer) ++
          ([hdrDestination] ++
            dumpBuffer (run K (startup K r dst0) (.fg 0 :: cycle K d)).dstBuffer) ++
          msgWaitNext) ∧
    String.join (dumpBuffer (run K (startup K r dst0) (.fg 0 :: cycle K d)).dstBuffer) =
      "0x10000000 0x10000001 0x10000002 0x10000003 \r\n" ++
      "0x10000004 0x10000005 0x10000006 0x10000007 \r\n" ++
      "0x10000008 0x10000009 0x1000000A 0x1000000B \r\n" ++
      "0x1000000C 0x1000000D 0x1000000E 0x1000000F \r\n" ++
      "0x20000000 0x20000001 0x20000002 0x20000003 \r\n" ++
      "0x20000004 0x20000005 0x20000006 0x20000007 \r\n" ++
      "0x20000008 0x20000009 0x2000000A 0x2000000B \r\n" ++
      "0x2000000C 0x2000000D 0x2000000E 0x2000000F \r\n" ++ "\r\n" := by
  obtain ⟨h1, h2, h3, h4⟩ := startup_live K r dst0 hlive
  have e0 : step K (startup K r dst0) (.fg 0) =
      { startup K r dst0 with g_isInterrupt := false, pc := .waitBtn } := by
    simp [step, stepMain, hlive, h1]
  have e1 := cycle_spec K d { startup K r dst0 with g_isInterrupt := false, pc := .waitBtn }
    rfl rfl hlive (by simpa [h4] using hlen)
  simp only [run]
  rw [e0, e1]
  refine ⟨rfl, rfl, rfl, rfl, ?_⟩
  exact dump_source_text

theorem e2e_output_witness :
    (run pdl0 (startup pdl0 allOk (List.replicate 32 0)) (.fg 0 :: cycle pdl0 ⟨1, 2, 3⟩)).dstBuffer
      = srcBuffer :=
  (e2e_output pdl0 allOk (List.replicate 32 0) ⟨1, 2, 3⟩ rfl rfl).2.2.1

/-! ## The flags in IDLE (C10) -/

/-- The completion flag stays set from the end of the completion wait until
line 278 of the next iteration. -/
theorem step_flag_kept (K : Pdl) (s : State) (e : Event) (w : Nat)
    (h1 : afterWait s.pc = true → s.g_isComplete = true)
    (h2 : 1 ≤ w → beforeClear s.pc = true → s.g_isComplete = true) :
    (afterWait (step K s e).pc = true → (step K s e).g_isComplete = true) ∧
    (1 ≤ w + wrapOf s e → beforeClear (step K s e).pc = true →
      (step K s e).g_isComplete = true) := by
  obtain ⟨pc, halted, c, i, dst, out, calls⟩ := s
  cases halted with
  | true =>
    have hs : step K ⟨pc, true, c, i, dst, out, calls⟩ e = ⟨pc, true, c, i, dst, out, calls⟩ ∨
        ∃ b, step K ⟨pc, true, c, i, dst, out, calls⟩ e = ⟨pc, true, c, i, b, out, calls⟩ := by
      cases e <;> simp [step]
    have hw : wrapOf ⟨pc, true, c, i, dst, out, calls⟩ e = 0 := by simp [wrapOf]
    rw [hw]
    rcases hs with hs | ⟨b, hs⟩ <;> rw [hs] <;> exact ⟨h1, h2⟩
  | false =>
    cases e with
    | fg st =>
      by_cases hst : st = K.CY_AXIDMAC_SUCCESS <;> by_cases hcmp : compareResult dst = 0 <;>
        cases pc <;> cases i <;> cases c <;>
        simp_all [step, stepMain, call, printf, CY_ASSERT, afterWait, beforeClear, wrapOf,
          Event.isFg]
    | gpioIrq =>
      simp [step, HandleGPIOIntr, call, wrapOf, Event.isFg] at h1 h2 ⊢
      exact ⟨h1, h2⟩
    | dmaIrq m =>
      by_cases hm : K.CY_AXIDMAC_INTR_COMPLETION = m
      · simp [step, HandleAXIDMACIntr, call, hm]
      · simp [step, HandleAXIDMACIntr, call, CY_ASSERT, hm, wrapOf, Event.isFg] at h1 h2 ⊢
        exact ⟨h1, h2⟩
    | dmaWrite idx v =>
      simp [step, wrapOf, Event.isFg] at h1 h2 ⊢
      exact ⟨h1, h2⟩

/-- The completion flag stays set from the end of the completion wait until
line 278 of the next iteration, along every run. -/
theorem run_flag_kept (K : Pdl) (es : List Event) (s : State) (w : Nat)
    (h1 : afterWait s.pc = true → s.g_isComplete = true)
    (h2 : 1 ≤ w → beforeClear s.pc = true → s.g_isComplete = true) :
    (afterWait (run K s es).pc = true → (run K s es).g_isComplete = true) ∧
    (1 ≤ w + wraps K s es → beforeClear (run K s es).pc = true →
      (run K s es).g_isComplete = true) := by
  induction es generalizing s w with
  | nil => exact ⟨h1, h2⟩
  | cons e es ih =>
    obtain ⟨k1, k2⟩ := step_flag_kept K s e w h1 h2
    have := ih (step K s e) (w + wrapOf s e) k1 k2
    simpa [run, wraps, Nat.add_assoc] using this

/-- Only the AXI-DMA interrupt sets the completion flag. -/
theorem step_flag_clear (K : Pdl) (s : State) (e : Event)
    (hc : s.g_isComplete = false) (he : e.isDmaIrq = false) :
    (step K s e).g_isComplete = false := by
  obtain ⟨pc, halted, c, i, dst, out, calls⟩ := s
  simp only at hc
  subst hc
  cases e with
  | fg st =>
    by_cases hst : st = K.CY_AXIDMAC_SUCCESS <;> by_cases hcmp : compareResult dst = 0 <;>
      cases pc <;> cases i <;> cases halted <;>
      simp_all [step, stepMain, call, printf, CY_ASSERT]
  | gpioIrq => cases halted <;> simp [step, HandleGPIOIntr, call]
  | dmaIrq m => simp [Event.isDmaIrq] at he
  | dmaWrite idx v => simp [step]

/-- Without an AXI-DMA interrupt the completion flag stays clear. -/
theorem run_flag_clear (K : Pdl) (es : List Event) (s : State)
    (hc : s.g_isComplete = false) (hes : ∀ e ∈ es, e.isDmaIrq = false) :
    (run K s es).g_isComplete = false := by
  induction es generalizing s with
  | nil => exact hc
  | cons e es ih =>
    exact ih (step K s e) (step_flag_clear K s e hc (hes e (List.mem_cons_self _ _)))
      (fun x hx => hes x (List.mem_cons_of_mem _ hx))

/-- Claim C10 fails as stated: after one whole cycle of the end-to-end scenario
the controller is in IDLE (polling for the trigger, button flag clear, no
interrupt delivered since the start of the iteration) and `g_isComplete` is
true. -/
theorem idle_after_cycle_flag_set :
    idleAfterCycle.pc = .waitBtn ∧ idleAfterCycle.halted = false ∧
    idleAfterCycle.g_isInterrupt = false ∧ idleAfterCycle.g_isComplete = true := by
  decide

/-- Claim C10, amended.  At the start of any iteration reached from the
bring-up (by any interleaving `es`), after the statement of line 262 and any
number of polls with no interrupt delivered, the controller is in the trigger
wait, `g_isInterrupt` is false and `g_isComplete` still has the value it had at
the start of the iteration: false as long as no AXI-DMA interrupt has been
delivered (the first iteration), true in every iteration that follows a
completed one. -/
theorem idle_flags (K : Pdl) (r : StartupStatus) (dst0 : List Nat) (es : List Event)
    (st k : Nat)
    (hpc : (run K (startup K r dst0) es).pc = .clearBtnFlag)
    (hh : (run K (startup K r dst0) es).halted = false) :
    (run K (startup K r dst0) (es ++ .fg st :: polls k)).pc = .waitBtn ∧
    (run K (startup K r dst0) (es ++ .fg st :: polls k)).g_isInterrupt = false ∧
    (run K (startup K r dst0) (es ++ .fg st :: polls k)).g_isComplete
      = (run K (startup K r dst0) es).g_isComplete ∧
    ((∀ e ∈ es, e.isDmaIrq = false) →
      (run K (startup K r dst0) (es ++ .fg st :: polls k)).g_isComplete = false) ∧
    (1 ≤ wraps K (startup K r dst0) es →
      (run K (startup K r dst0) (es ++ .fg st :: polls k)).g_isComplete = true) := by
  have hf := startup_flag K r dst0
  have e1 : step K (run K (startup K r dst0) es) (.fg st) =
      { run K (startup K r dst0) es with g_isInterrupt := false, pc := .waitBtn } := by
    simp [step, stepMain, hpc, hh]
  have e2 := run_polls_waitBtn K k
    { run K (startup K r dst0) es with g_isInterrupt := false, pc := .waitBtn } rfl rfl hh
  have e3 : run K (startup K r dst0) (es ++ .fg st :: polls k) =
      { run K (startup K r dst0) es with
        g_isInterrupt := false, pc := .waitBtn,
        calls := (run K (startup K r dst0) es).calls ++
          List.replicate k (.Cy_SysLib_Delay DELAY_MS) } := by
    rw [run_append, run, e1, e2]
  rw [e3]
  refine ⟨rfl, rfl, rfl, ?_, ?_⟩
  · intro hes
    exact run_flag_clear K es _ hf hes
  · intro hw
    have := (run_flag_kept K es (startup K r dst0) 0
      (by rw [startup_pc]; intro h; cases h)
      (by intro h; omega)).2 (by omega) (by rw [hpc]; rfl)
    exact this

theorem idle_flags_witness :
    (run pdl0 (startup pdl0 allOk (List.replicate 32 0)) ([] ++ .fg 0 :: polls 3)).g_isComplete
      = false ∧
    (run pdl0 (startup pdl0 allOk (List.replicate 32 0))
      (iterationWithEdges ++ .fg 0 :: polls 3)).g_isComplete = true :=
  ⟨(idle_flags pdl0 allOk (List.replicate 32 0) [] 0 3 (by decide) (by decide)).2.2.2.1
      (by decide),
   (idle_flags pdl0 allOk (List.replicate 32 0) iterationWithEdges 0 3 (by decide)
      (by decide)).2.2.2.2 (by decide)⟩

end AxiDmaMemCopy
